import Mathlib

/-!
# zvm: version validation and command dispatch

A shallow embedding of `cli/version.go`, `cli/error.go` and the `install`, `use`
and `uninstall` actions of `main.go`.

Go code that touches the outside world (HTTP, the file system, the JSON decoder,
the settings loader) is embedded as explicit state passing: every function takes
the current `State` and returns its Go result together with the new `State`.
The answers of the outside world are the fields of an `Env`; the calls made to it
are appended to `State.trace`.  Log output (`log.Debug`, `log.Warnf`) and the
deferred `resp.Body.Close()` are not recorded.
-/

namespace Zvm

/-! ## Go values -/

/-- A Go `[]byte`: a response body or the contents of a file (each element a byte). -/
abbrev Bytes := List Nat

/-- A Go `error` value.  `New msg` is a value made by `errors.New(msg)`; the package-level
errors of `cli/error.go` are of that form and are told apart by their text.
`jsonSyntaxError` is a `*json.SyntaxError`, `jsonUnmarshalTypeError` a
`*json.UnmarshalTypeError`, `foreign` any error made by `net/http`, `net/url`, `io` or `os`,
and `wrap2 a b` is the value of `fmt.Errorf("%w: %w", a, b)`, whose `Unwrap` is `[a, b]`. -/
inductive GoError where
  | New (msg : String)
  | jsonSyntaxError (msg : String) (offset : Nat)
  | jsonUnmarshalTypeError (value : String) (goType : String) (offset : Nat)
  | foreign (pkg : String) (msg : String)
  | wrap2 (a : GoError) (b : GoError)
  deriving DecidableEq, Repr

/-- Go `errors.Is(err, target)`: `err` equals `target`, or some error in the tree that
`err` wraps does. -/
def GoError.Is : GoError → GoError → Bool
  | .wrap2 a b, target =>
    decide (GoError.wrap2 a b = target) || GoError.Is a target || GoError.Is b target
  | err, target => decide (err = target)

/-- Go `errors.As(err, &syntaxErr)` with `syntaxErr` of type `*json.SyntaxError`: the first
JSON decoding error of that type in the tree of `err`, depth first. -/
def GoError.AsSyntaxError : GoError → Option (String × Nat)
  | .jsonSyntaxError msg offset => some (msg, offset)
  | .wrap2 a b =>
    match GoError.AsSyntaxError a with
    | some e => some e
    | none => GoError.AsSyntaxError b
  | _ => none

/-! ## cli/error.go -/

def ErrMissingBundlePath : GoError := .New "bundle download path not found"
def ErrUnsupportedSystem : GoError := .New "unsupported system for Zig"
def ErrUnsupportedVersion : GoError := .New "unsupported Zig version"
def ErrMissingInstallPathEnv : GoError := .New "env 'ZVM_INSTALL' is not set"
def ErrFailedUpgrade : GoError := .New "failed to self-upgrade zvm"
def ErrInvalidVersionMap : GoError := .New "invalid version map format"
def ErrInvalidZlsVersion : GoError := .New "invalid ZLS version"

/-! ## Data model -/

/-- Modelled from the spec: the declaration of the per-release value of `zigVersionMap`
is not among the sources; the spec describes it as a nested per-platform object holding a
download URL and metadata.  Only the keys of the index are ever inspected. -/
abbrev ReleaseInfo := List (String × String)

/-- Modelled from the spec: the declaration of `zigVersionMap` is not among the sources;
the spec describes the primary index as a mapping from version token to a per-platform
object.  A Go map is read by key only, here with `List.lookup`; the nil map is `[]`. -/
abbrev zigVersionMap := List (String × ReleaseInfo)

/-- Modelled from the spec: the declaration of `zlsCIDownloadIndexResponse` is not among
the sources; the spec describes the companion index as a top-level object with a
"versions" field mapping token to metadata. -/
structure zlsCIDownloadIndexResponse where
  Versions : List (String × ReleaseInfo)
  deriving DecidableEq, Repr

/-- The one field of the settings record that `cli/version.go` reads. -/
structure Settings where
  VersionMapUrl : String
  deriving DecidableEq, Repr

/-- The receiver `z *ZVM`, with the two fields `cli/version.go` uses. -/
structure ZVM where
  baseDir : String
  Settings : Settings
  deriving DecidableEq, Repr

/-- An `*http.Request` as built by `http.NewRequest` followed by `req.Header.Set`. -/
structure Request where
  Method : String
  URL : String
  Header : List (String × String)
  deriving DecidableEq, Repr

/-- An `*http.Response`: its status code and what `io.ReadAll(resp.Body)` yields. -/
structure Response where
  StatusCode : Nat
  Body : Except GoError Bytes

/-- A call made to the outside world. -/
inductive Effect where
  | httpDo (req : Request)
  | writeFile (name : String) (data : Bytes) (perm : Nat)
  deriving DecidableEq, Repr

/-- The outside world and the code of the repository that is not among the sources.
`Do` and `WriteFile` receive the calls made so far, so their answers may change over time. -/
structure Env where
  /-- The constant `meta.VERSION`. -/
  VERSION : String
  /-- The method `z.loadSettings()`: its error and the receiver it leaves behind. -/
  loadSettings : ZVM → Option GoError × ZVM
  /-- The error of `http.NewRequest(method, url, nil)`, `none` when the request is built. -/
  NewRequest : String → String → Option GoError
  /-- The method `http.DefaultClient.Do`. -/
  Do : List Effect → Request → Except GoError Response
  /-- The call `json.Unmarshal(data, &m)` on a fresh `zigVersionMap`. -/
  UnmarshalVersionMap : Bytes → Except GoError zigVersionMap
  /-- The call `json.Unmarshal(data, &releases)` on a zero `zlsCIDownloadIndexResponse`. -/
  UnmarshalZls : Bytes → Except GoError zlsCIDownloadIndexResponse
  /-- The function `filepath.Join` on two elements. -/
  Join : String → String → String
  /-- The error of `os.WriteFile(name, data, perm)`, `none` when the file is written. -/
  WriteFile : List Effect → String → Bytes → Nat → Option GoError

/-- The receiver and the calls made to the outside world so far, oldest first. -/
structure State where
  zvm : ZVM
  trace : List Effect
  deriving DecidableEq, Repr

/-! ## cli/version.go -/

def fetchVersionMap (env : Env) (s : State) : Except GoError zigVersionMap × State :=
  let s0 : State := { s with zvm := (env.loadSettings s.zvm).2 }
  let defaultVersionMapUrl := "https://ziglang.org/download/index.json"
  let versionMapUrl :=
    if s0.zvm.Settings.VersionMapUrl.length = 0 then defaultVersionMapUrl
    else s0.zvm.Settings.VersionMapUrl
  match env.NewRequest "GET" versionMapUrl with
  | some err => (.error err, s0)
  | none =>
    let req : Request :=
      { Method := "GET", URL := versionMapUrl, Header := [("User-Agent", "zvm " ++ env.VERSION)] }
    let s1 : State := { s0 with trace := s0.trace ++ [.httpDo req] }
    match env.Do s0.trace req with
    | .error err => (.error err, s1)
    | .ok resp =>
      match resp.Body with
      | .error err => (.error err, s1)
      | .ok versions =>
        match env.UnmarshalVersionMap versions with
        | .error err =>
          if (GoError.AsSyntaxError err).isSome then
            (.error (.wrap2 ErrInvalidVersionMap err), s1)
          else (.error err, s1)
        | .ok rawVersionStructure =>
          let name := env.Join s1.zvm.baseDir "versions.json"
          let s2 : State := { s1 with trace := s1.trace ++ [.writeFile name versions 0o755] }
          match env.WriteFile s1.trace name versions 0o755 with
          | some err => (.error err, s2)
          | none => (.ok rawVersionStructure, s2)

def zigVersionIsValid (env : Env) (s : State) (version : String) : Option GoError × State :=
  if version = "master" then (none, s)
  else
    match fetchVersionMap env s with
    | (.error err, s1) => (some err, s1)
    | (.ok versionMap, s1) =>
      match versionMap.lookup version with
      | none => (some ErrUnsupportedVersion, s1)
      | some _ => (none, s1)

def zlsVersionIsValid (env : Env) (s : State) (version : String) : Option GoError × State :=
  if version = "master" then (none, s)
  else
    let zlsVersionsUrl := "https://zigtools-releases.nyc3.digitaloceanspaces.com/zls/index.json"
    match env.NewRequest "GET" zlsVersionsUrl with
    | some err => (some err, s)
    | none =>
      let req : Request :=
        { Method := "GET", URL := zlsVersionsUrl, Header := [("User-Agent", "zvm " ++ env.VERSION)] }
      let s1 : State := { s with trace := s.trace ++ [.httpDo req] }
      match env.Do s.trace req with
      | .error err => (some err, s1)
      | .ok resp =>
        match resp.Body with
        | .error err => (some err, s1)
        | .ok data =>
          match env.UnmarshalZls data with
          | .error err => (some err, s1)
          | .ok releases =>
            match releases.Versions.lookup version with
            | none => (some ErrInvalidZlsVersion, s1)
            | some _ => (none, s1)

def ValidateVersion (env : Env) (s : State) (version : String) : Option GoError × State :=
  match zigVersionIsValid env s version with
  | (some err, s1) => (some err, s1)
  | (none, s1) =>
    match zlsVersionIsValid env s1 version with
    | (some err, s2) => (some err, s2)
    | (none, s2) => (none, s2)

/-! ## main.go -/

/-- Go `strings.HasPrefix`. -/
def HasPrefix (s pre : String) : Bool := pre.data.isPrefixOf s.data

/-- Go `strings.TrimPrefix`: `s` without the leading `pre`, or `s` itself when it does not
start with `pre`. -/
def TrimPrefix (s pre : String) : String :=
  if HasPrefix s pre then String.mk (s.data.drop pre.data.length) else s

/-- The method `ctx.Args().First()` of urfave/cli: the first positional argument, or the
empty string when there is none. -/
def First (args : List String) : String := args.headD ""

/-- The struct returned by `cli.ExtractInstall`, with the fields `main.go` uses. -/
structure installRequest where
  Package : String
  Version : String
  deriving DecidableEq, Repr

/-- An operation of the engine called from `main.go`, with the token handed to it. -/
inductive EngineCall where
  | ZigVersionIsValid (version : String)
  | ZlsVersionIsValid (version : String)
  | Install (version : String)
  | InstallZls (version : String)
  | Use (version : String)
  | Uninstall (version : String)
  deriving DecidableEq, Repr

/-- The code of package `cli` called from `main.go` that is not among the sources:
`cli.ExtractInstall` and the error each engine operation returns. -/
structure Engine where
  ExtractInstall : String → installRequest
  run : EngineCall → Option GoError

/-- The `Action` of the `install` command: its error and the engine operations it called,
oldest first.  `zls` is `ctx.Bool("zls")`. -/
def installAction (eng : Engine) (args : List String) (zls : Bool) :
    Option GoError × List EngineCall :=
  let versionArg := TrimPrefix (First args) "v"
  if versionArg = "" then (some (.New "no version provided"), [])
  else
    let req0 := eng.ExtractInstall versionArg
    let req : installRequest := { req0 with Version := TrimPrefix req0.Version "v" }
    let t1 := [EngineCall.ZigVersionIsValid req.Package]
    match eng.run (.ZigVersionIsValid req.Package) with
    | some err => (some err, t1)
    | none =>
      let checked : Option GoError × List EngineCall :=
        if zls then (eng.run (.ZlsVersionIsValid req.Package), t1 ++ [.ZlsVersionIsValid req.Package])
        else (none, t1)
      match checked with
      | (some err, t2) => (some err, t2)
      | (none, t2) =>
        let t3 := t2 ++ [.Install req.Package]
        match eng.run (.Install req.Package) with
        | some err => (some err, t3)
        | none =>
          if zls then (eng.run (.InstallZls req.Package), t3 ++ [.InstallZls req.Package])
          else (none, t3)

/-- The `Action` of the `use` command. -/
def useAction (eng : Engine) (args : List String) : Option GoError × List EngineCall :=
  let versionArg := TrimPrefix (First args) "v"
  (eng.run (.Use versionArg), [.Use versionArg])

/-- The `Action` of the `uninstall` command. -/
def uninstallAction (eng : Engine) (args : List String) : Option GoError × List EngineCall :=
  let versionArg := TrimPrefix (First args) "v"
  (eng.run (.Uninstall versionArg), [.Uninstall versionArg])

/-! ## The requests sent -/

/-- The request `fetchVersionMap` builds (lines 32 to 47) for a receiver `z` whose settings
have been loaded. -/
def versionMapRequest (env : Env) (z : ZVM) : Request :=
  { Method := "GET",
    URL :=
      if z.Settings.VersionMapUrl.length = 0 then "https://ziglang.org/download/index.json"
      else z.Settings.VersionMapUrl,
    Header := [("User-Agent", "zvm " ++ env.VERSION)] }

/-- The request `zlsVersionIsValid` builds (lines 113 to 120). -/
def zlsRequest (env : Env) : Request :=
  { Method := "GET",
    URL := "https://zigtools-releases.nyc3.digitaloceanspaces.com/zls/index.json",
    Header := [("User-Agent", "zvm " ++ env.VERSION)] }

/-- The state in which `fetchVersionMap` finds itself once its request has been sent: the
settings are loaded and the request is recorded. -/
def afterRequest (env : Env) (s : State) : State :=
  { zvm := (env.loadSettings s.zvm).2,
    trace := s.trace ++ [.httpDo (versionMapRequest env (env.loadSettings s.zvm).2)] }

/-- The state after `fetchVersionMap` has also called `os.WriteFile` on `versions`. -/
def afterWrite (env : Env) (s : State) (versions : Bytes) : State :=
  { zvm := (env.loadSettings s.zvm).2,
    trace := (afterRequest env s).trace ++
      [.writeFile (env.Join (env.loadSettings s.zvm).2.baseDir "versions.json") versions 0o755] }

/-! ## Sample worlds

Concrete worlds on which the theorems below are instantiated. -/

/-- The bytes of the index `{"0.11.0":{},"master":{}}`. -/
def primaryBody : Bytes :=
  [123, 34, 48, 46, 49, 49, 46, 48, 34, 58, 123, 125, 44, 34, 109, 97, 115, 116, 101, 114, 34,
   58, 123, 125, 125]

/-- The bytes of the companion index `{"versions":{"0.12.0":{}}}`. -/
def zlsBody : Bytes :=
  [123, 34, 118, 101, 114, 115, 105, 111, 110, 115, 34, 58, 123, 34, 48, 46, 49, 50, 46, 48, 34,
   58, 123, 125, 125, 125]

/-- The bytes of `<html>`, which is not JSON. -/
def htmlBody : Bytes := [60, 104, 116, 109, 108, 62]

/-- The bytes of `[]`, which is JSON but not an object. -/
def arrayBody : Bytes := [91, 93]

/-- The bytes of `null`, which is JSON but not an object. -/
def nullBody : Bytes := [110, 117, 108, 108]

/-- The index decoded from `primaryBody`. -/
def primaryIndex : zigVersionMap := [("0.11.0", []), ("master", [])]

/-- The companion index decoded from `zlsBody`. -/
def zlsIndex : zlsCIDownloadIndexResponse := { Versions := [("0.12.0", [])] }

/-- The answers of `encoding/json` on the sample bodies, decoding into a `zigVersionMap`.
The JSON value `null` sets a map to nil and is no error. -/
def sampleUnmarshalVersionMap (data : Bytes) : Except GoError zigVersionMap :=
  if data = primaryBody then .ok primaryIndex
  else if data = nullBody then .ok []
  else if data = arrayBody then
    .error (.jsonUnmarshalTypeError "array" "cli.zigVersionMap" 1)
  else .error (.jsonSyntaxError "invalid character looking for beginning of value" 1)

/-- The answers of `encoding/json` on the sample bodies, decoding into a
`zlsCIDownloadIndexResponse`.  The JSON value `null` leaves the zero struct and is no error. -/
def sampleUnmarshalZls (data : Bytes) : Except GoError zlsCIDownloadIndexResponse :=
  if data = zlsBody then .ok zlsIndex
  else if data = nullBody then .ok { Versions := [] }
  else if data = arrayBody then
    .error (.jsonUnmarshalTypeError "array" "cli.zlsCIDownloadIndexResponse" 1)
  else .error (.jsonSyntaxError "invalid character looking for beginning of value" 1)

/-- A world whose servers answer every request with status `status`: the companion URL
with `zlsBody`, any other URL with `body`.  Writing a file yields `writeErr`. -/
def sampleEnv (status : Nat) (body : Bytes) (writeErr : Option GoError) : Env where
  VERSION := "v0.7.9"
  loadSettings := fun z => (none, z)
  NewRequest := fun _ _ => none
  Do := fun _ req =>
    if req.URL = "https://zigtools-releases.nyc3.digitaloceanspaces.com/zls/index.json" then
      .ok { StatusCode := status, Body := .ok zlsBody }
    else .ok { StatusCode := status, Body := .ok body }
  UnmarshalVersionMap := sampleUnmarshalVersionMap
  UnmarshalZls := sampleUnmarshalZls
  Join := fun dir name => dir ++ "/" ++ name
  WriteFile := fun _ _ _ _ => writeErr

/-- A world without network: every request fails in transport. -/
def offlineEnv : Env :=
  { sampleEnv 200 primaryBody none with
    Do := fun _ _ => .error (.foreign "net" "dial tcp: lookup ziglang.org: no such host") }

/-- A fresh receiver with the given version-map URL and no call made yet. -/
def sampleState (url : String) : State :=
  { zvm := { baseDir := "/home/user/.zvm", Settings := { VersionMapUrl := url } }, trace := [] }

/-- An engine whose operations all succeed and whose `ExtractInstall` takes the whole
argument as the package. -/
def sampleEngine : Engine where
  ExtractInstall := fun input => { Package := input, Version := "" }
  run := fun _ => none

/-- The error of a write into a directory that may not be written. -/
def writeDenied : GoError :=
  .foreign "os" "open /home/user/.zvm/versions.json: permission denied"

/-! ## Theorems -/

/-- Go `len(s) == 0` holds exactly for the empty string. -/
theorem length_eq_zero_iff (str : String) : str.length = 0 ↔ str = "" := by
  constructor
  · intro h
    apply String.ext
    exact List.length_eq_zero.mp h
  · intro h
    rw [h]
    rfl

/-- Unfolding of `fetchVersionMap` once the response body `versions` has been read. -/
theorem fetchVersionMap_of_body (env : Env) (s : State) (resp : Response) (versions : Bytes)
    (hreq : env.NewRequest "GET" (versionMapRequest env (env.loadSettings s.zvm).2).URL = none)
    (hdo : env.Do s.trace (versionMapRequest env (env.loadSettings s.zvm).2) = .ok resp)
    (hbody : resp.Body = .ok versions) :
    fetchVersionMap env s =
      match env.UnmarshalVersionMap versions with
      | .error err =>
        if (GoError.AsSyntaxError err).isSome then
          (.error (.wrap2 ErrInvalidVersionMap err), afterRequest env s)
        else (.error err, afterRequest env s)
      | .ok m =>
        match env.WriteFile (afterRequest env s).trace
            (env.Join (env.loadSettings s.zvm).2.baseDir "versions.json") versions 0o755 with
        | some err => (.error err, afterWrite env s versions)
        | none => (.ok m, afterWrite env s versions) := by
  simp only [versionMapRequest] at hreq hdo
  simp only [fetchVersionMap, hreq, hdo, hbody, afterRequest, afterWrite, versionMapRequest]

/-- When the request cannot be built, `fetchVersionMap` calls nothing. -/
theorem fetchVersionMap_trace_of_no_request (env : Env) (s : State) (e : GoError)
    (hreq : env.NewRequest "GET" (versionMapRequest env (env.loadSettings s.zvm).2).URL = some e) :
    (fetchVersionMap env s).2.trace = s.trace := by
  simp only [versionMapRequest] at hreq
  simp only [fetchVersionMap, hreq]

/-- When the request is built, `fetchVersionMap` sends it and then at most writes a file. -/
theorem fetchVersionMap_trace_of_request (env : Env) (s : State)
    (hreq : env.NewRequest "GET" (versionMapRequest env (env.loadSettings s.zvm).2).URL = none) :
    (fetchVersionMap env s).2.trace = (afterRequest env s).trace ∨
    ∃ versions, (fetchVersionMap env s).2.trace = (afterWrite env s versions).trace := by
  simp only [versionMapRequest] at hreq
  simp only [fetchVersionMap, hreq, afterRequest, afterWrite, versionMapRequest]
  repeat' split
  all_goals first
    | exact Or.inl rfl
    | exact Or.inr ⟨_, rfl⟩

/-- The calls of `zlsVersionIsValid` for a token other than "master": nothing when the
request cannot be built, and otherwise the one request to the companion index. -/
theorem zlsVersionIsValid_trace (env : Env) (s : State) (version : String)
    (hconcrete : version ≠ "master") :
    (zlsVersionIsValid env s version).2.trace =
      match env.NewRequest "GET" (zlsRequest env).URL with
      | some _ => s.trace
      | none => s.trace ++ [.httpDo (zlsRequest env)] := by
  simp only [zlsVersionIsValid, if_neg hconcrete, zlsRequest]
  repeat' split
  all_goals rfl

/-- C1: whenever `fetchVersionMap` returns an index `m` without error and the token is a
key of `m`, `zigVersionIsValid` returns nil. -/
theorem zigVersionIsValid_of_key (env : Env) (s s1 : State) (version : String)
    (m : zigVersionMap) (hfetch : fetchVersionMap env s = (.ok m, s1))
    (hkey : (m.lookup version).isSome = true) :
    (zigVersionIsValid env s version).1 = none := by
  unfold zigVersionIsValid
  split
  · rfl
  · rw [hfetch]
    cases hl : List.lookup version m with
    | none => rw [hl] at hkey; cases hkey
    | some v => simp only [hl]

theorem zigVersionIsValid_of_key_witness :
    (zigVersionIsValid (sampleEnv 200 primaryBody none) (sampleState "") "0.11.0").1 = none :=
  zigVersionIsValid_of_key (sampleEnv 200 primaryBody none) (sampleState "")
    { sampleState "" with trace :=
        [.httpDo { Method := "GET", URL := "https://ziglang.org/download/index.json",
                   Header := [("User-Agent", "zvm v0.7.9")] },
         .writeFile "/home/user/.zvm/versions.json" primaryBody 493] }
    "0.11.0" primaryIndex (by rfl) (by decide)

/-- C2: for a token other than "master", whenever `fetchVersionMap` returns an index `m`
without error and the token is not a key of `m`, `zigVersionIsValid` returns exactly
`ErrUnsupportedVersion`. -/
theorem zigVersionIsValid_of_not_key (env : Env) (s s1 : State) (version : String)
    (m : zigVersionMap) (hconcrete : version ≠ "master")
    (hfetch : fetchVersionMap env s = (.ok m, s1))
    (hkey : List.lookup version m = none) :
    zigVersionIsValid env s version = (some ErrUnsupportedVersion, s1) := by
  unfold zigVersionIsValid
  rw [if_neg hconcrete, hfetch]
  simp only [hkey]

theorem zigVersionIsValid_of_not_key_witness :
    zigVersionIsValid (sampleEnv 200 primaryBody none) (sampleState "") "0.9.9" =
      (some ErrUnsupportedVersion,
        { sampleState "" with trace :=
            [.httpDo { Method := "GET", URL := "https://ziglang.org/download/index.json",
                       Header := [("User-Agent", "zvm v0.7.9")] },
             .writeFile "/home/user/.zvm/versions.json" primaryBody 493] }) :=
  zigVersionIsValid_of_not_key (sampleEnv 200 primaryBody none) (sampleState "") _ "0.9.9"
    primaryIndex (by decide) (by rfl) (by decide)

/-- C3: for the token "master", `zigVersionIsValid`, `zlsVersionIsValid` and
`ValidateVersion` return nil and leave the state as it was, so no HTTP request is sent and no
file is written, in every world and for every receiver. -/
theorem master_is_valid_offline (env : Env) (s : State) :
    zigVersionIsValid env s "master" = (none, s) ∧
    zlsVersionIsValid env s "master" = (none, s) ∧
    ValidateVersion env s "master" = (none, s) := by
  refine ⟨?_, ?_, ?_⟩
  · simp [zigVersionIsValid]
  · simp [zlsVersionIsValid]
  · simp [ValidateVersion, zigVersionIsValid, zlsVersionIsValid]

/-- C4: `ValidateVersion` runs the primary check first.  When `zigVersionIsValid` fails
with `e`, `ValidateVersion` returns `e` in the state the primary check left, so the companion
check has sent nothing; when it returns nil, `ValidateVersion` returns exactly what
`zlsVersionIsValid` returns from the state the primary check left. -/
theorem ValidateVersion_primary_first (env : Env) (s : State) (version : String) :
    (∀ e s1, zigVersionIsValid env s version = (some e, s1) →
      ValidateVersion env s version = (some e, s1)) ∧
    (∀ s1, zigVersionIsValid env s version = (none, s1) →
      ValidateVersion env s version = zlsVersionIsValid env s1 version) := by
  constructor
  · intro e s1 h
    simp only [ValidateVersion, h]
  · intro s1 h
    simp only [ValidateVersion, h]
    rcases hz : zlsVersionIsValid env s1 version with ⟨_ | e, s2⟩ <;> rfl

theorem ValidateVersion_primary_first_witness :
    ValidateVersion (sampleEnv 200 primaryBody none) (sampleState "") "0.9.9" =
      (some ErrUnsupportedVersion,
        { sampleState "" with trace :=
            [.httpDo { Method := "GET", URL := "https://ziglang.org/download/index.json",
                       Header := [("User-Agent", "zvm v0.7.9")] },
             .writeFile "/home/user/.zvm/versions.json" primaryBody 493] }) ∧
    ValidateVersion (sampleEnv 200 primaryBody none) (sampleState "") "0.11.0" =
      zlsVersionIsValid (sampleEnv 200 primaryBody none)
        { sampleState "" with trace :=
            [.httpDo { Method := "GET", URL := "https://ziglang.org/download/index.json",
                       Header := [("User-Agent", "zvm v0.7.9")] },
             .writeFile "/home/user/.zvm/versions.json" primaryBody 493] } "0.11.0" :=
  ⟨(ValidateVersion_primary_first (sampleEnv 200 primaryBody none) (sampleState "") "0.9.9").1
      _ _ (by rfl),
   (ValidateVersion_primary_first (sampleEnv 200 primaryBody none) (sampleState "") "0.11.0").2
      _ (by rfl)⟩

/-- C5: for a token other than "master", when the companion index is fetched and decoded
and the token is not a key of its `Versions`, `zlsVersionIsValid` returns
`ErrInvalidZlsVersion`, which is not `ErrUnsupportedVersion` and matches it in neither
direction; hence `ValidateVersion` of a token that is a key of the primary index returns
`ErrInvalidZlsVersion` too.  Here `s` is the state in which the companion check starts. -/
theorem zlsVersionIsValid_of_not_key (env : Env) (s : State) (version : String)
    (resp : Response) (data : Bytes) (releases : zlsCIDownloadIndexResponse)
    (hconcrete : version ≠ "master")
    (hreq : env.NewRequest "GET" (zlsRequest env).URL = none)
    (hdo : env.Do s.trace (zlsRequest env) = .ok resp)
    (hbody : resp.Body = .ok data)
    (hdecode : env.UnmarshalZls data = .ok releases)
    (hkey : List.lookup version releases.Versions = none) :
    (zlsVersionIsValid env s version).1 = some ErrInvalidZlsVersion ∧
    ErrInvalidZlsVersion ≠ ErrUnsupportedVersion ∧
    GoError.Is ErrInvalidZlsVersion ErrUnsupportedVersion = false ∧
    GoError.Is ErrUnsupportedVersion ErrInvalidZlsVersion = false ∧
    (∀ s0 m, fetchVersionMap env s0 = (.ok m, s) → (List.lookup version m).isSome = true →
      (ValidateVersion env s0 version).1 = some ErrInvalidZlsVersion) := by
  have hzls : zlsVersionIsValid env s version =
      (some ErrInvalidZlsVersion, { s with trace := s.trace ++ [.httpDo (zlsRequest env)] }) := by
    simp only [zlsRequest] at hreq hdo
    simp only [zlsVersionIsValid, if_neg hconcrete, hreq, hdo, hbody, hdecode, hkey, zlsRequest]
  refine ⟨by rw [hzls], by decide, by decide, by decide, ?_⟩
  intro s0 m hfetch hmem
  have hzig : zigVersionIsValid env s0 version = (none, s) := by
    unfold zigVersionIsValid
    rw [if_neg hconcrete, hfetch]
    cases hl : List.lookup version m with
    | none => rw [hl] at hmem; cases hmem
    | some v => simp only [hl]
  simp only [ValidateVersion, hzig, hzls]

theorem zlsVersionIsValid_of_not_key_witness :
    (zlsVersionIsValid (sampleEnv 200 primaryBody none)
        (afterWrite (sampleEnv 200 primaryBody none) (sampleState "") primaryBody) "0.11.0").1 =
      some ErrInvalidZlsVersion ∧
    (ValidateVersion (sampleEnv 200 primaryBody none) (sampleState "") "0.11.0").1 =
        some ErrInvalidZlsVersion :=
  have h := zlsVersionIsValid_of_not_key (sampleEnv 200 primaryBody none)
    (afterWrite (sampleEnv 200 primaryBody none) (sampleState "") primaryBody) "0.11.0"
    { StatusCode := 200, Body := .ok zlsBody } zlsBody zlsIndex
    (by decide) (by rfl) (by rfl) (by rfl) (by rfl) (by decide)
  ⟨h.1, h.2.2.2.2 (sampleState "") primaryIndex (by rfl) (by decide)⟩

/-- C6, as the code has it: for every response body that `fetchVersionMap` receives: when
the JSON decoder rejects it with a syntax error, `fetchVersionMap` returns no index and an
error that matches `ErrInvalidVersionMap` and carries that syntax error; when the decoder
rejects it with a type error (a top-level array or number), it returns that error itself,
which does not match `ErrInvalidVersionMap` and holds no syntax error; when the decoder
accepts it, object or not, no decoding error is reported: the decoded map is returned with
nil once versions.json is written, and the only error left is that of the write. -/
theorem fetchVersionMap_decode_errors (env : Env) (s : State) (resp : Response)
    (versions : Bytes)
    (hreq : env.NewRequest "GET" (versionMapRequest env (env.loadSettings s.zvm).2).URL = none)
    (hdo : env.Do s.trace (versionMapRequest env (env.loadSettings s.zvm).2) = .ok resp)
    (hbody : resp.Body = .ok versions) :
    (∀ msg offset, env.UnmarshalVersionMap versions = .error (.jsonSyntaxError msg offset) →
      ∃ e, fetchVersionMap env s = (.error e, afterRequest env s) ∧
        GoError.Is e ErrInvalidVersionMap = true ∧
        GoError.Is e (.jsonSyntaxError msg offset) = true ∧
        GoError.AsSyntaxError e = some (msg, offset)) ∧
    (∀ value goType offset,
      env.UnmarshalVersionMap versions = .error (.jsonUnmarshalTypeError value goType offset) →
      fetchVersionMap env s =
        (.error (.jsonUnmarshalTypeError value goType offset), afterRequest env s) ∧
      GoError.Is (.jsonUnmarshalTypeError value goType offset) ErrInvalidVersionMap = false ∧
      GoError.AsSyntaxError (.jsonUnmarshalTypeError value goType offset) = none) ∧
    (∀ m, env.UnmarshalVersionMap versions = .ok m →
      fetchVersionMap env s =
        match env.WriteFile (afterRequest env s).trace
            (env.Join (env.loadSettings s.zvm).2.baseDir "versions.json") versions 0o755 with
        | some e => (.error e, afterWrite env s versions)
        | none => (.ok m, afterWrite env s versions)) := by
  refine ⟨?_, ?_, ?_⟩
  · intro msg offset hdecode
    refine ⟨.wrap2 ErrInvalidVersionMap (.jsonSyntaxError msg offset), ?_, ?_, ?_, ?_⟩
    · rw [fetchVersionMap_of_body env s resp versions hreq hdo hbody, hdecode]
      simp [GoError.AsSyntaxError]
    · simp [GoError.Is, ErrInvalidVersionMap]
    · simp [GoError.Is, ErrInvalidVersionMap]
    · simp [GoError.AsSyntaxError, ErrInvalidVersionMap]
  · intro value goType offset hdecode
    refine ⟨?_, ?_, ?_⟩
    · rw [fetchVersionMap_of_body env s resp versions hreq hdo hbody, hdecode]
      simp [GoError.AsSyntaxError]
    · simp [GoError.Is, ErrInvalidVersionMap]
    · simp [GoError.AsSyntaxError]
  · intro m hdecode
    rw [fetchVersionMap_of_body env s resp versions hreq hdo hbody, hdecode]

theorem fetchVersionMap_decode_errors_witness :
    (∃ e, fetchVersionMap (sampleEnv 200 htmlBody none) (sampleState "") =
        (.error e, afterRequest (sampleEnv 200 htmlBody none) (sampleState "")) ∧
      GoError.Is e ErrInvalidVersionMap = true ∧
      GoError.Is e
        (.jsonSyntaxError "invalid character looking for beginning of value" 1) = true ∧
      GoError.AsSyntaxError e =
        some ("invalid character looking for beginning of value", 1)) ∧
    (fetchVersionMap (sampleEnv 200 arrayBody none) (sampleState "") =
        (.error (.jsonUnmarshalTypeError "array" "cli.zigVersionMap" 1),
          afterRequest (sampleEnv 200 arrayBody none) (sampleState "")) ∧
      GoError.Is (.jsonUnmarshalTypeError "array" "cli.zigVersionMap" 1) ErrInvalidVersionMap
        = false ∧
      GoError.AsSyntaxError (.jsonUnmarshalTypeError "array" "cli.zigVersionMap" 1) = none) ∧
    fetchVersionMap (sampleEnv 200 nullBody none) (sampleState "") =
      (.ok [], afterWrite (sampleEnv 200 nullBody none) (sampleState "") nullBody) :=
  ⟨(fetchVersionMap_decode_errors (sampleEnv 200 htmlBody none) (sampleState "")
      { StatusCode := 200, Body := .ok htmlBody } htmlBody (by rfl) (by rfl) (by rfl)).1
      _ _ (by rfl),
   (fetchVersionMap_decode_errors (sampleEnv 200 arrayBody none) (sampleState "")
      { StatusCode := 200, Body := .ok arrayBody } arrayBody (by rfl) (by rfl) (by rfl)).2.1
      _ _ _ (by rfl),
   (fetchVersionMap_decode_errors (sampleEnv 200 nullBody none) (sampleState "")
      { StatusCode := 200, Body := .ok nullBody } nullBody (by rfl) (by rfl) (by rfl)).2.2
      [] (by rfl)⟩

/-- C6 fails as stated: the body `null` is valid JSON and not an object, the decoder
accepts it and leaves the nil map, and `fetchVersionMap` returns that empty index with a
nil error after writing the body to versions.json, so no error at all is returned. -/
theorem null_body_is_accepted :
    (sampleEnv 200 nullBody none).UnmarshalVersionMap nullBody = .ok [] ∧
    (fetchVersionMap (sampleEnv 200 nullBody none) (sampleState "")).1 = .ok [] ∧
    (∀ e, (fetchVersionMap (sampleEnv 200 nullBody none) (sampleState "")).1 ≠ .error e) ∧
    Effect.writeFile "/home/user/.zvm/versions.json" nullBody 0o755 ∈
      (fetchVersionMap (sampleEnv 200 nullBody none) (sampleState "")).2.trace := by
  have h1 : (fetchVersionMap (sampleEnv 200 nullBody none) (sampleState "")).1 = .ok [] := by
    rfl
  have h2 : (fetchVersionMap (sampleEnv 200 nullBody none) (sampleState "")).2.trace =
      [.httpDo { Method := "GET", URL := "https://ziglang.org/download/index.json",
                 Header := [("User-Agent", "zvm v0.7.9")] },
       .writeFile "/home/user/.zvm/versions.json" nullBody 0o755] := by rfl
  refine ⟨by rfl, h1, ?_, ?_⟩
  · intro e h
    rw [h1] at h
    cases h
  · rw [h2]
    simp

/-- C7, as the code has it: once the primary index is fetched and decoded, the outcome
of `os.WriteFile` decides the fetch.  When the write fails with `e`, `fetchVersionMap`
returns no index and `e`, and `zigVersionIsValid` of every token other than "master"
returns `e`; when the write succeeds, `fetchVersionMap` returns the decoded index and nil. -/
theorem fetchVersionMap_cache_write (env : Env) (s : State) (resp : Response)
    (versions : Bytes) (m : zigVersionMap)
    (hreq : env.NewRequest "GET" (versionMapRequest env (env.loadSettings s.zvm).2).URL = none)
    (hdo : env.Do s.trace (versionMapRequest env (env.loadSettings s.zvm).2) = .ok resp)
    (hbody : resp.Body = .ok versions)
    (hdecode : env.UnmarshalVersionMap versions = .ok m) :
    (∀ e, env.WriteFile (afterRequest env s).trace
        (env.Join (env.loadSettings s.zvm).2.baseDir "versions.json") versions 0o755 = some e →
      fetchVersionMap env s = (.error e, afterWrite env s versions) ∧
      ∀ version, version ≠ "master" →
        zigVersionIsValid env s version = (some e, afterWrite env s versions)) ∧
    (env.WriteFile (afterRequest env s).trace
        (env.Join (env.loadSettings s.zvm).2.baseDir "versions.json") versions 0o755 = none →
      fetchVersionMap env s = (.ok m, afterWrite env s versions)) := by
  have hf := fetchVersionMap_of_body env s resp versions hreq hdo hbody
  rw [hdecode] at hf
  constructor
  · intro e hw
    have hfe : fetchVersionMap env s = (.error e, afterWrite env s versions) := by
      rw [hf]; simp only [hw]
    refine ⟨hfe, ?_⟩
    intro version hconcrete
    simp only [zigVersionIsValid, if_neg hconcrete, hfe]
  · intro hw
    rw [hf]; simp only [hw]

theorem fetchVersionMap_cache_write_witness :
    (fetchVersionMap (sampleEnv 200 primaryBody (some writeDenied)) (sampleState "") =
        (.error writeDenied,
          afterWrite (sampleEnv 200 primaryBody (some writeDenied)) (sampleState "") primaryBody) ∧
      ∀ version, version ≠ "master" →
        zigVersionIsValid (sampleEnv 200 primaryBody (some writeDenied)) (sampleState "") version =
          (some writeDenied,
            afterWrite (sampleEnv 200 primaryBody (some writeDenied)) (sampleState "")
              primaryBody)) ∧
    fetchVersionMap (sampleEnv 200 primaryBody none) (sampleState "") =
      (.ok primaryIndex, afterWrite (sampleEnv 200 primaryBody none) (sampleState "") primaryBody) :=
  ⟨(fetchVersionMap_cache_write (sampleEnv 200 primaryBody (some writeDenied)) (sampleState "")
      { StatusCode := 200, Body := .ok primaryBody } primaryBody primaryIndex
      (by rfl) (by rfl) (by rfl) (by rfl)).1 writeDenied (by rfl),
   (fetchVersionMap_cache_write (sampleEnv 200 primaryBody none) (sampleState "")
      { StatusCode := 200, Body := .ok primaryBody } primaryBody primaryIndex
      (by rfl) (by rfl) (by rfl) (by rfl)).2 (by rfl)⟩

/-- C7 fails as stated: the index `primaryBody` is fetched with status 200 and decoded,
the write of versions.json is refused, and `fetchVersionMap` returns the write error
instead of the decoded index; `zigVersionIsValid` of the key "0.11.0" fails with it. -/
theorem cache_write_failure_fails_fetch :
    (sampleEnv 200 primaryBody (some writeDenied)).UnmarshalVersionMap primaryBody =
      .ok primaryIndex ∧
    List.lookup "0.11.0" primaryIndex = some [] ∧
    (fetchVersionMap (sampleEnv 200 primaryBody (some writeDenied)) (sampleState "")).1 =
      .error writeDenied ∧
    (fetchVersionMap (sampleEnv 200 primaryBody (some writeDenied)) (sampleState "")).1 ≠
      .ok primaryIndex ∧
    (zigVersionIsValid (sampleEnv 200 primaryBody (some writeDenied)) (sampleState "")
      "0.11.0").1 = some writeDenied := by
  refine ⟨by rfl, by rfl, by rfl, ?_, by rfl⟩
  intro h
  have h2 : (fetchVersionMap (sampleEnv 200 primaryBody (some writeDenied)) (sampleState "")).1 =
      .error writeDenied := by rfl
  rw [h2] at h
  cases h

/-- C8, as the code has it: `fetchVersionMap` fails with the error of the transport when
building the request, sending it or reading the body fails, and then writes no file.  The
status code is not looked at: a response of any status code whose body decodes and whose
cache write succeeds gives the decoded index with nil, and the body is written to
versions.json. -/
theorem fetchVersionMap_ignores_status (env : Env) (s : State) :
    (∀ e, env.NewRequest "GET" (versionMapRequest env (env.loadSettings s.zvm).2).URL = some e →
      fetchVersionMap env s = (.error e, { s with zvm := (env.loadSettings s.zvm).2 })) ∧
    (∀ e, env.NewRequest "GET" (versionMapRequest env (env.loadSettings s.zvm).2).URL = none →
      env.Do s.trace (versionMapRequest env (env.loadSettings s.zvm).2) = .error e →
      fetchVersionMap env s = (.error e, afterRequest env s)) ∧
    (∀ code e, env.NewRequest "GET" (versionMapRequest env (env.loadSettings s.zvm).2).URL = none →
      env.Do s.trace (versionMapRequest env (env.loadSettings s.zvm).2) =
        .ok { StatusCode := code, Body := .error e } →
      fetchVersionMap env s = (.error e, afterRequest env s)) ∧
    (∀ code versions m,
      env.NewRequest "GET" (versionMapRequest env (env.loadSettings s.zvm).2).URL = none →
      env.Do s.trace (versionMapRequest env (env.loadSettings s.zvm).2) =
        .ok { StatusCode := code, Body := .ok versions } →
      env.UnmarshalVersionMap versions = .ok m →
      env.WriteFile (afterRequest env s).trace
        (env.Join (env.loadSettings s.zvm).2.baseDir "versions.json") versions 0o755 = none →
      fetchVersionMap env s = (.ok m, afterWrite env s versions)) := by
  refine ⟨?_, ?_, ?_, ?_⟩
  · intro e hreq
    simp only [versionMapRequest] at hreq
    simp only [fetchVersionMap, hreq]
  · intro e hreq hdo
    simp only [versionMapRequest] at hreq hdo
    simp only [fetchVersionMap, hreq, hdo, afterRequest, versionMapRequest]
  · intro code e hreq hdo
    simp only [versionMapRequest] at hreq hdo
    simp only [fetchVersionMap, hreq, hdo, afterRequest, versionMapRequest]
  · intro code versions m hreq hdo hdecode hw
    rw [fetchVersionMap_of_body env s _ versions hreq hdo rfl, hdecode]
    simp only [hw]

theorem fetchVersionMap_ignores_status_witness :
    fetchVersionMap offlineEnv (sampleState "") =
      (.error (.foreign "net" "dial tcp: lookup ziglang.org: no such host"),
        afterRequest offlineEnv (sampleState "")) ∧
    fetchVersionMap (sampleEnv 503 primaryBody none) (sampleState "") =
      (.ok primaryIndex, afterWrite (sampleEnv 503 primaryBody none) (sampleState "") primaryBody) :=
  ⟨(fetchVersionMap_ignores_status offlineEnv (sampleState "")).2.1 _ (by rfl) (by rfl),
   (fetchVersionMap_ignores_status (sampleEnv 503 primaryBody none) (sampleState "")).2.2.2
      503 primaryBody primaryIndex (by rfl) (by rfl) (by rfl) (by rfl)⟩

/-- C8 fails as stated: the server answers with status 404 and the body `primaryBody`;
`fetchVersionMap` returns the index decoded from that body with a nil error and writes the
body to versions.json. -/
theorem not_found_response_is_accepted :
    (∃ resp, (sampleEnv 404 primaryBody none).Do (sampleState "").trace
        (versionMapRequest (sampleEnv 404 primaryBody none) (sampleState "").zvm) = .ok resp ∧
      resp.StatusCode = 404 ∧ ¬ (200 ≤ resp.StatusCode ∧ resp.StatusCode < 300)) ∧
    (fetchVersionMap (sampleEnv 404 primaryBody none) (sampleState "")).1 = .ok primaryIndex ∧
    Effect.writeFile "/home/user/.zvm/versions.json" primaryBody 0o755 ∈
      (fetchVersionMap (sampleEnv 404 primaryBody none) (sampleState "")).2.trace := by
  refine ⟨⟨{ StatusCode := 404, Body := .ok primaryBody }, by rfl, by rfl, by decide⟩, by rfl, ?_⟩
  have h : (fetchVersionMap (sampleEnv 404 primaryBody none) (sampleState "")).2.trace =
      [.httpDo { Method := "GET", URL := "https://ziglang.org/download/index.json",
                 Header := [("User-Agent", "zvm v0.7.9")] },
       .writeFile "/home/user/.zvm/versions.json" primaryBody 0o755] := by rfl
  rw [h]
  simp

/-- C9, as the code has it: the primary fetch requests `Settings.VersionMapUrl` as loaded
by `loadSettings` when it is non-empty and https://ziglang.org/download/index.json otherwise;
the companion fetch always requests
https://zigtools-releases.nyc3.digitaloceanspaces.com/zls/index.json, whatever
`Settings.VersionMapUrl` is; the two defaults differ.  Each sends that one request and no
other, and sends nothing when the request cannot be built. -/
theorem requested_urls (env : Env) (s : State) (version : String) :
    (∀ url,
      url = (if (env.loadSettings s.zvm).2.Settings.VersionMapUrl = "" then
               "https://ziglang.org/download/index.json"
             else (env.loadSettings s.zvm).2.Settings.VersionMapUrl) →
      match env.NewRequest "GET" url with
      | some _ => (fetchVersionMap env s).2.trace = s.trace
      | none =>
        ∃ rest, (fetchVersionMap env s).2.trace =
            s.trace ++
              Effect.httpDo { Method := "GET", URL := url,
                              Header := [("User-Agent", "zvm " ++ env.VERSION)] } :: rest ∧
          ∀ req, Effect.httpDo req ∉ rest) ∧
    (version ≠ "master" →
      match env.NewRequest "GET"
          "https://zigtools-releases.nyc3.digitaloceanspaces.com/zls/index.json" with
      | some _ => (zlsVersionIsValid env s version).2.trace = s.trace
      | none =>
        (zlsVersionIsValid env s version).2.trace =
          s.trace ++
            [Effect.httpDo
              { Method := "GET",
                URL := "https://zigtools-releases.nyc3.digitaloceanspaces.com/zls/index.json",
                Header := [("User-Agent", "zvm " ++ env.VERSION)] }]) ∧
    "https://ziglang.org/download/index.json" ≠
      "https://zigtools-releases.nyc3.digitaloceanspaces.com/zls/index.json" := by
  refine ⟨?_, ?_, by decide⟩
  · intro url hurl
    have hu : url = (versionMapRequest env (env.loadSettings s.zvm).2).URL := by
      rw [hurl]
      simp only [versionMapRequest, length_eq_zero_iff]
    have hr : (versionMapRequest env (env.loadSettings s.zvm).2) =
        { Method := "GET", URL := url, Header := [("User-Agent", "zvm " ++ env.VERSION)] } := by
      rw [hu]; rfl
    cases hreq : env.NewRequest "GET" url with
    | some e =>
      rw [hu] at hreq
      exact fetchVersionMap_trace_of_no_request env s e hreq
    | none =>
      rw [hu] at hreq
      rcases fetchVersionMap_trace_of_request env s hreq with h | ⟨versions, h⟩
      · refine ⟨[], ?_, by simp⟩
        rw [h, afterRequest, hr]
      · refine ⟨[.writeFile (env.Join (env.loadSettings s.zvm).2.baseDir "versions.json")
            versions 0o755], ?_, by simp⟩
        rw [h, afterWrite, afterRequest, hr]
        simp
  · intro hconcrete
    have h := zlsVersionIsValid_trace env s version hconcrete
    simp only [zlsRequest] at h
    cases hreq : env.NewRequest "GET"
        "https://zigtools-releases.nyc3.digitaloceanspaces.com/zls/index.json" with
    | some e => rw [hreq] at h; exact h
    | none => rw [hreq] at h; exact h

theorem requested_urls_witness :
    (∃ rest, (fetchVersionMap (sampleEnv 200 primaryBody none)
          (sampleState "https://machengine.org/zig/index.json")).2.trace =
        [] ++ Effect.httpDo { Method := "GET", URL := "https://machengine.org/zig/index.json",
                              Header := [("User-Agent", "zvm " ++ "v0.7.9")] } :: rest ∧
      ∀ req, Effect.httpDo req ∉ rest) ∧
    (zlsVersionIsValid (sampleEnv 200 primaryBody none)
        (sampleState "https://machengine.org/zig/index.json") "0.12.0").2.trace =
      [] ++ [Effect.httpDo
        { Method := "GET",
          URL := "https://zigtools-releases.nyc3.digitaloceanspaces.com/zls/index.json",
          Header := [("User-Agent", "zvm " ++ "v0.7.9")] }] :=
  ⟨(requested_urls (sampleEnv 200 primaryBody none)
      (sampleState "https://machengine.org/zig/index.json") "0.12.0").1
      "https://machengine.org/zig/index.json" (by decide),
   (requested_urls (sampleEnv 200 primaryBody none)
      (sampleState "https://machengine.org/zig/index.json") "0.12.0").2.1 (by decide)⟩

/-- C9 fails as stated for the companion index: with `Settings.VersionMapUrl` set to
https://machengine.org/zig/index.json, `zlsVersionIsValid` still sends its request to the
hard-coded companion URL and none to the configured one. -/
theorem companion_ignores_VersionMapUrl :
    (sampleState "https://machengine.org/zig/index.json").zvm.Settings.VersionMapUrl ≠ "" ∧
    (zlsVersionIsValid (sampleEnv 200 primaryBody none)
        (sampleState "https://machengine.org/zig/index.json") "0.12.0").2.trace =
      [Effect.httpDo
        { Method := "GET",
          URL := "https://zigtools-releases.nyc3.digitaloceanspaces.com/zls/index.json",
          Header := [("User-Agent", "zvm v0.7.9")] }] ∧
    "https://zigtools-releases.nyc3.digitaloceanspaces.com/zls/index.json" ≠
      (sampleState "https://machengine.org/zig/index.json").zvm.Settings.VersionMapUrl := by
  refine ⟨by decide, by rfl, by decide⟩

/-- C10: the `use` and `uninstall` actions hand the empty token to the engine when the
argument is "v", empty or missing, while the `install` action rejects the same arguments
with an error before any engine operation is called. -/
theorem use_and_uninstall_hand_over_empty_token (eng : Engine) (zls : Bool) :
    useAction eng ["v"] = (eng.run (.Use ""), [.Use ""]) ∧
    useAction eng [""] = (eng.run (.Use ""), [.Use ""]) ∧
    useAction eng [] = (eng.run (.Use ""), [.Use ""]) ∧
    uninstallAction eng ["v"] = (eng.run (.Uninstall ""), [.Uninstall ""]) ∧
    uninstallAction eng [""] = (eng.run (.Uninstall ""), [.Uninstall ""]) ∧
    uninstallAction eng [] = (eng.run (.Uninstall ""), [.Uninstall ""]) ∧
    installAction eng ["v"] zls = (some (.New "no version provided"), []) ∧
    installAction eng [""] zls = (some (.New "no version provided"), []) ∧
    installAction eng [] zls = (some (.New "no version provided"), []) := by
  refine ⟨rfl, rfl, rfl, rfl, rfl, rfl, rfl, rfl, rfl⟩

end Zvm
